import Mathlib

/-!
Verification development for the PRAY2 binary generator
(`Azan_lookupGenerator/span_params_with_adhanpy_csv_bin.py`).

The core under verification:
* `compute_minutes_table` — the schedule table builder (offsets, minute
  conversion, clamping, monotonic repair);
* `validate_rtc_ascii` — the RTC field codec;
* `write_pray2_bin` — the binary encoder (header, table, CRC-32 trailer).

Python features are shallowly embedded: a `datetime` is modelled by its
total minutes from an arbitrary local epoch midnight (seconds and
microseconds never influence the computed fields `hour`/`minute` or the
addition of whole-minute `timedelta`s); fallible operations (dictionary
lookup, `struct.pack` range checks, `str.encode("ascii")`, exceptions
raised by the time oracle) return `Option`.
-/

namespace AzanBin

/-- Model of a Python `datetime`'s clock content: total minutes since an
arbitrary local epoch midnight.  `hour` and `minute` mirror `dt.hour` and
`dt.minute`; adding `timedelta(minutes = m)` adds `m` to the total. -/
structure PyDateTime where
  totalMinutes : Int
deriving Repr, DecidableEq

/-- Minutes since the current date's midnight (always in `[0, 1439]`). -/
def PyDateTime.minuteOfDay (d : PyDateTime) : Nat :=
  (d.totalMinutes % 1440).toNat

/-- Python `dt.hour`. -/
def PyDateTime.hour (d : PyDateTime) : Nat := d.minuteOfDay / 60

/-- Python `dt.minute`. -/
def PyDateTime.minute (d : PyDateTime) : Nat := d.minuteOfDay % 60

/-- Python `dt + timedelta(minutes = m)` (signed). -/
def PyDateTime.addMinutes (d : PyDateTime) (m : Int) : PyDateTime :=
  ⟨d.totalMinutes + m⟩

/-- Source `to_min = lambda dt: dt.hour*60 + dt.minute`. -/
def to_min (dt : PyDateTime) : Nat := dt.hour * 60 + dt.minute

/-- One oracle result: the five prayer `datetime`s returned by
`PrayerTimes(...)` for one date (`pt.fajr`, …, `pt.isha`). -/
structure OracleRow where
  fajr : PyDateTime
  dhuhr : PyDateTime
  asr : PyDateTime
  maghrib : PyDateTime
  isha : PyDateTime
deriving Repr, DecidableEq

/-- The per-prayer signed minute offsets `offsets["Fajr"]`, … -/
structure Offsets where
  fajr : Int
  dhuhr : Int
  asr : Int
  maghrib : Int
  isha : Int
deriving Repr, DecidableEq

/-- Source line `t[i] = max(0, min(1439, t[i]))`. -/
def clamp1439 (x : Nat) : Nat := max 0 (min 1439 x)

/-- Source `t = [to_min(fajr), to_min(dhuhr), to_min(asr), to_min(mag),
to_min(isha)]` where each time already had its offset applied by
`adj = lambda dt, mins: dt + timedelta(minutes=mins)`. -/
def rawMinutes (pt : OracleRow) (o : Offsets) : List Nat :=
  [to_min (pt.fajr.addMinutes o.fajr),
   to_min (pt.dhuhr.addMinutes o.dhuhr),
   to_min (pt.asr.addMinutes o.asr),
   to_min (pt.maghrib.addMinutes o.maghrib),
   to_min (pt.isha.addMinutes o.isha)]

/-- The row after the clamping loop `for i in range(5)`. -/
def clampedMinutes (pt : OracleRow) (o : Offsets) : List Nat :=
  (rawMinutes pt o).map clamp1439

/-- Body of the repair loop: `if t[i] <= t[i-1]: t[i] = min(t[i-1]+1, 1439)`,
where `prev` is the (already repaired) value `t[i-1]`. -/
def repairNext (prev t : Nat) : Nat :=
  if t ≤ prev then min (prev + 1) 1439 else t

/-- The sequential repair loop `for i in range(1,5)` applied to the five
clamped values. -/
def monoRepair5 (c0 c1 c2 c3 c4 : Nat) : List Nat :=
  let r1 := repairNext c0 c1
  let r2 := repairNext r1 c2
  let r3 := repairNext r2 c3
  let r4 := repairNext r3 c4
  [c0, r1, r2, r3, r4]

/-- One iteration of the date loop of `compute_minutes_table`: adjust by
offsets, convert to minute of day, clamp, repair, yield `tuple(t)`. -/
def computeRow (pt : OracleRow) (o : Offsets) : List Nat :=
  monoRepair5
    (clamp1439 (to_min (pt.fajr.addMinutes o.fajr)))
    (clamp1439 (to_min (pt.dhuhr.addMinutes o.dhuhr)))
    (clamp1439 (to_min (pt.asr.addMinutes o.asr)))
    (clamp1439 (to_min (pt.maghrib.addMinutes o.maghrib)))
    (clamp1439 (to_min (pt.isha.addMinutes o.isha)))

/-- Source `compute_minutes_table`: one row per date of the span, in
order.  Each list entry stands for the oracle call
`PrayerTimes((lat,lon), d, method, time_zone=tz)` on one date of
`daterange(start,end)`; `none` models the oracle raising an exception,
which aborts the whole table (the Python exception propagates). -/
def compute_minutes_table (oracle : List (Option OracleRow)) (o : Offsets) :
    Option (List (List Nat)) :=
  match oracle with
  | [] => some []
  | none :: _ => none
  | some pt :: rest =>
      (compute_minutes_table rest o).map (fun rs => computeRow pt o :: rs)

/-- A row is strictly increasing left-to-right. -/
def strictRow (r : List Nat) : Prop := List.Chain' (· < ·) r

instance (r : List Nat) : Decidable (strictRow r) :=
  inferInstanceAs (Decidable (List.Chain' (· < ·) r))

/-- A row is non-decreasing left-to-right. -/
def nondecRow (r : List Nat) : Prop := List.Chain' (· ≤ ·) r

instance (r : List Nat) : Decidable (nondecRow r) :=
  inferInstanceAs (Decidable (List.Chain' (· ≤ ·) r))

-- Basic bounds

theorem to_min_lt (dt : PyDateTime) : to_min dt < 1440 := by
  unfold to_min PyDateTime.hour PyDateTime.minute PyDateTime.minuteOfDay
  have h0 : (0 : Int) ≤ dt.totalMinutes % 1440 :=
    Int.emod_nonneg _ (by norm_num)
  have h1 : dt.totalMinutes % 1440 < 1440 :=
    Int.emod_lt_of_pos _ (by norm_num)
  have h2 : (dt.totalMinutes % 1440).toNat < 1440 := by omega
  omega

theorem clamp1439_le (x : Nat) : clamp1439 x ≤ 1439 := by
  unfold clamp1439; omega

theorem repairNext_le (prev t : Nat) (hp : prev ≤ 1439) (ht : t ≤ 1439) :
    repairNext prev t ≤ 1439 := by
  unfold repairNext; split <;> omega

theorem repairNext_strict_or_sat (prev t : Nat) (hp : prev ≤ 1439) :
    prev < repairNext prev t ∨ (prev = 1439 ∧ repairNext prev t = 1439) := by
  unfold repairNext; split <;> omega

theorem repairNext_ge (prev t : Nat) (ht : t ≤ 1439) :
    t ≤ repairNext prev t := by
  unfold repairNext; split <;> omega

theorem computeRow_eq (pt : OracleRow) (o : Offsets) :
    computeRow pt o =
      match clampedMinutes pt o with
      | [c0, c1, c2, c3, c4] => monoRepair5 c0 c1 c2 c3 c4
      | l => l := by
  rfl

theorem computeRow_length (pt : OracleRow) (o : Offsets) :
    (computeRow pt o).length = 5 := by
  rfl

theorem computeRow_mem_le (pt : OracleRow) (o : Offsets) :
    ∀ x ∈ computeRow pt o, x ≤ 1439 := by
  intro x hx
  unfold computeRow monoRepair5 at hx
  set c0 := clamp1439 (to_min (pt.fajr.addMinutes o.fajr)) with hc0
  set c1 := clamp1439 (to_min (pt.dhuhr.addMinutes o.dhuhr)) with hc1
  set c2 := clamp1439 (to_min (pt.asr.addMinutes o.asr)) with hc2
  set c3 := clamp1439 (to_min (pt.maghrib.addMinutes o.maghrib)) with hc3
  set c4 := clamp1439 (to_min (pt.isha.addMinutes o.isha)) with hc4
  have b0 := clamp1439_le (to_min (pt.fajr.addMinutes o.fajr))
  have b1 := clamp1439_le (to_min (pt.dhuhr.addMinutes o.dhuhr))
  have b2 := clamp1439_le (to_min (pt.asr.addMinutes o.asr))
  have b3 := clamp1439_le (to_min (pt.maghrib.addMinutes o.maghrib))
  have b4 := clamp1439_le (to_min (pt.isha.addMinutes o.isha))
  rw [← hc0] at b0; rw [← hc1] at b1; rw [← hc2] at b2
  rw [← hc3] at b3; rw [← hc4] at b4
  have r1 := repairNext_le c0 c1 b0 b1
  have r2 := repairNext_le (repairNext c0 c1) c2 r1 b2
  have r3 := repairNext_le (repairNext (repairNext c0 c1) c2) c3 r2 b3
  have r4 := repairNext_le (repairNext (repairNext (repairNext c0 c1) c2) c3)
    c4 r3 b4
  simp only [List.mem_cons, List.not_mem_nil, or_false] at hx
  rcases hx with h | h | h | h | h <;> subst h <;> assumption

theorem computeRow_strict_or_sat (pt : OracleRow) (o : Offsets) :
    List.Chain' (fun a b => a < b ∨ (a = 1439 ∧ b = 1439)) (computeRow pt o) := by
  unfold computeRow monoRepair5
  set c0 := clamp1439 (to_min (pt.fajr.addMinutes o.fajr)) with hc0
  set c1 := clamp1439 (to_min (pt.dhuhr.addMinutes o.dhuhr)) with hc1
  set c2 := clamp1439 (to_min (pt.asr.addMinutes o.asr)) with hc2
  set c3 := clamp1439 (to_min (pt.maghrib.addMinutes o.maghrib)) with hc3
  set c4 := clamp1439 (to_min (pt.isha.addMinutes o.isha)) with hc4
  have b0 := clamp1439_le (to_min (pt.fajr.addMinutes o.fajr))
  have b1 := clamp1439_le (to_min (pt.dhuhr.addMinutes o.dhuhr))
  have b2 := clamp1439_le (to_min (pt.asr.addMinutes o.asr))
  have b3 := clamp1439_le (to_min (pt.maghrib.addMinutes o.maghrib))
  have b4 := clamp1439_le (to_min (pt.isha.addMinutes o.isha))
  rw [← hc0] at b0; rw [← hc1] at b1; rw [← hc2] at b2
  rw [← hc3] at b3; rw [← hc4] at b4
  have r1 := repairNext_le c0 c1 b0 b1
  have r2 := repairNext_le (repairNext c0 c1) c2 r1 b2
  have r3 := repairNext_le (repairNext (repairNext c0 c1) c2) c3 r2 b3
  simp only [List.chain'_cons, List.chain'_singleton, and_true]
  exact ⟨repairNext_strict_or_sat c0 c1 b0,
         repairNext_strict_or_sat _ c2 r1,
         repairNext_strict_or_sat _ c3 r2,
         repairNext_strict_or_sat _ c4 r3⟩

theorem computeRow_ge_clamped (pt : OracleRow) (o : Offsets) (i : Nat) :
    (clampedMinutes pt o).getD i 0 ≤ (computeRow pt o).getD i 0 := by
  unfold computeRow monoRepair5 clampedMinutes rawMinutes
  set c0 := clamp1439 (to_min (pt.fajr.addMinutes o.fajr)) with hc0
  set c1 := clamp1439 (to_min (pt.dhuhr.addMinutes o.dhuhr)) with hc1
  set c2 := clamp1439 (to_min (pt.asr.addMinutes o.asr)) with hc2
  set c3 := clamp1439 (to_min (pt.maghrib.addMinutes o.maghrib)) with hc3
  set c4 := clamp1439 (to_min (pt.isha.addMinutes o.isha)) with hc4
  have b1 := clamp1439_le (to_min (pt.dhuhr.addMinutes o.dhuhr))
  have b2 := clamp1439_le (to_min (pt.asr.addMinutes o.asr))
  have b3 := clamp1439_le (to_min (pt.maghrib.addMinutes o.maghrib))
  have b4 := clamp1439_le (to_min (pt.isha.addMinutes o.isha))
  rw [← hc1] at b1; rw [← hc2] at b2; rw [← hc3] at b3; rw [← hc4] at b4
  match i with
  | 0 => simp [List.getD]
  | 1 => simpa [List.getD] using repairNext_ge c0 c1 b1
  | 2 => simpa [List.getD] using repairNext_ge _ c2 b2
  | 3 => simpa [List.getD] using repairNext_ge _ c3 b3
  | 4 => simpa [List.getD] using repairNext_ge _ c4 b4
  | (n + 5) => simp [List.getD]

theorem compute_minutes_table_mem (oracle : List (Option OracleRow))
    (o : Offsets) (rows : List (List Nat))
    (h : compute_minutes_table oracle o = some rows) :
    ∀ r ∈ rows, ∃ pt, some pt ∈ oracle ∧ r = computeRow pt o := by
  induction oracle generalizing rows with
  | nil =>
      simp only [compute_minutes_table] at h
      cases h; simp
  | cons hd tl ih =>
      cases hd with
      | none => simp [compute_minutes_table] at h
      | some pt =>
          simp only [compute_minutes_table, Option.map_eq_some'] at h
          obtain ⟨rs, hrs, hrows⟩ := h
          intro r hr
          rw [← hrows] at hr
          rcases List.mem_cons.mp hr with h1 | h1
          · exact ⟨pt, by simp, h1⟩
          · obtain ⟨pt2, hpt2, hre⟩ := ih rs hrs r h1
            exact ⟨pt2, by simp [hpt2], hre⟩

theorem compute_minutes_table_length (oracle : List (Option OracleRow))
    (o : Offsets) (rows : List (List Nat))
    (h : compute_minutes_table oracle o = some rows) :
    rows.length = oracle.length := by
  induction oracle generalizing rows with
  | nil => simp only [compute_minutes_table] at h; cases h; rfl
  | cons hd tl ih =>
      cases hd with
      | none => simp [compute_minutes_table] at h
      | some pt =>
          simp only [compute_minutes_table, Option.map_eq_some'] at h
          obtain ⟨rs, hrs, hrows⟩ := h
          rw [← hrows]
          simp [ih rs hrs]

theorem compute_minutes_table_no_failure (oracle : List (Option OracleRow))
    (o : Offsets) (rows : List (List Nat))
    (h : compute_minutes_table oracle o = some rows) :
    none ∉ oracle := by
  induction oracle generalizing rows with
  | nil => simp
  | cons hd tl ih =>
      cases hd with
      | none => simp [compute_minutes_table] at h
      | some pt =>
          simp only [compute_minutes_table, Option.map_eq_some'] at h
          obtain ⟨rs, hrs, _⟩ := h
          simp [ih rs hrs]

-- Concrete fixtures used by witnesses and counterexamples.

/-- Zero offsets (the default: the operator pressed Enter for each prayer). -/
def zeroOffsets : Offsets := ⟨0, 0, 0, 0, 0⟩

/-- An oracle row with all five prayer times at 23:59 local time
(minute of day 1439 for every prayer). -/
def allLateRow : OracleRow := ⟨⟨1439⟩, ⟨1439⟩, ⟨1439⟩, ⟨1439⟩, ⟨1439⟩⟩

/-- A typical oracle row: Fajr 04:36, Dhuhr 12:38, Asr 16:55,
Maghrib 18:52, Isha 20:10. -/
def exRow1 : OracleRow := ⟨⟨276⟩, ⟨758⟩, ⟨1015⟩, ⟨1132⟩, ⟨1210⟩⟩

/-- A second typical oracle row, one minute earlier on each prayer. -/
def exRow2 : OracleRow := ⟨⟨275⟩, ⟨757⟩, ⟨1014⟩, ⟨1131⟩, ⟨1209⟩⟩

/-- C1 counterexample: with an oracle that puts every prayer at 23:59
(a legal `datetime` output) and zero offsets, the produced row is
`[1439, 1439, 1439, 1439, 1439]`, which is not strictly increasing —
the saturating repair `min(t[i-1]+1, 1439)` cannot restore strictness at
the top of the range. -/
theorem C1_strict_counterexample :
    compute_minutes_table [some allLateRow] zeroOffsets =
      some [[1439, 1439, 1439, 1439, 1439]] ∧
    ¬ strictRow [1439, 1439, 1439, 1439, 1439] := by
  constructor
  · decide
  · simp [strictRow, List.chain'_cons]

/-- C1 (amended): every row produced by `compute_minutes_table` has all
five values in `[0, 1439]` and is non-decreasing left-to-right;
consecutive values can be equal only when both are `1439` (repair
saturation), so the row is strictly increasing whenever its predecessor
value is below `1439`. -/
theorem C1_rows_strict_amended (oracle : List (Option OracleRow))
    (o : Offsets) (rows : List (List Nat))
    (h : compute_minutes_table oracle o = some rows) :
    ∀ r ∈ rows, (∀ x ∈ r, x ≤ 1439) ∧ nondecRow r ∧
      List.Chain' (fun a b => a < b ∨ (a = 1439 ∧ b = 1439)) r := by
  intro r hr
  obtain ⟨pt, _, hre⟩ := compute_minutes_table_mem oracle o rows h r hr
  subst hre
  refine ⟨computeRow_mem_le pt o, ?_, computeRow_strict_or_sat pt o⟩
  exact (computeRow_strict_or_sat pt o).imp (fun h1 => by omega)

/-- Witness for C1 (amended) at a concrete schedule. -/
theorem C1_rows_strict_witness :
    compute_minutes_table [some exRow1] zeroOffsets =
      some [[276, 758, 1015, 1132, 1210]] ∧
    ((∀ x ∈ [276, 758, 1015, 1132, 1210], x ≤ 1439) ∧
      nondecRow [276, 758, 1015, 1132, 1210] ∧
      List.Chain' (fun a b => a < b ∨ (a = 1439 ∧ b = 1439))
        [276, 758, 1015, 1132, 1210]) :=
  ⟨by decide,
   C1_rows_strict_amended [some exRow1] zeroOffsets
     [[276, 758, 1015, 1132, 1210]] (by decide)
     [276, 758, 1015, 1132, 1210] (by decide)⟩

/-- C5: the repair step applied to the clamped minutes follows exactly
the rule "for i = 1..4 in order, if `value[i] <= value[i-1]` (with
`value[i-1]` already repaired) then `value[i] := min(value[i-1]+1, 1439)`",
and clamped raw minutes `[300, 300, 500, 600, 700]` repair to
`[300, 301, 500, 600, 700]`. -/
theorem C5_mono_repair_rule :
    (∀ (pt : OracleRow) (o : Offsets),
      (computeRow pt o).getD 0 0 = (clampedMinutes pt o).getD 0 0 ∧
      (∀ i, 1 ≤ i → i ≤ 4 →
        (computeRow pt o).getD i 0 =
          if (clampedMinutes pt o).getD i 0 ≤ (computeRow pt o).getD (i - 1) 0
          then min ((computeRow pt o).getD (i - 1) 0 + 1) 1439
          else (clampedMinutes pt o).getD i 0)) ∧
    monoRepair5 300 300 500 600 700 = [300, 301, 500, 600, 700] ∧
    computeRow ⟨⟨300⟩, ⟨300⟩, ⟨500⟩, ⟨600⟩, ⟨700⟩⟩ zeroOffsets =
      [300, 301, 500, 600, 700] := by
  refine ⟨fun pt o => ⟨?_, ?_⟩, by decide, by decide⟩
  · simp [computeRow, monoRepair5, clampedMinutes, rawMinutes, List.getD]
  · intro i h1 h4
    interval_cases i <;>
      simp [computeRow, monoRepair5, clampedMinutes, rawMinutes,
        repairNext, List.getD]

/-- Witness for C5's universally quantified part at a concrete input
(the rule instance at i = 1 on the tie row). -/
theorem C5_mono_repair_witness :
    (computeRow ⟨⟨300⟩, ⟨300⟩, ⟨500⟩, ⟨600⟩, ⟨700⟩⟩ zeroOffsets).getD 1 0 =
      if (clampedMinutes ⟨⟨300⟩, ⟨300⟩, ⟨500⟩, ⟨600⟩, ⟨700⟩⟩ zeroOffsets).getD 1 0 ≤
          (computeRow ⟨⟨300⟩, ⟨300⟩, ⟨500⟩, ⟨600⟩, ⟨700⟩⟩ zeroOffsets).getD 0 0
      then min ((computeRow ⟨⟨300⟩, ⟨300⟩, ⟨500⟩, ⟨600⟩, ⟨700⟩⟩ zeroOffsets).getD 0 0 + 1) 1439
      else (clampedMinutes ⟨⟨300⟩, ⟨300⟩, ⟨500⟩, ⟨600⟩, ⟨700⟩⟩ zeroOffsets).getD 1 0 :=
  ((C5_mono_repair_rule.1 ⟨⟨300⟩, ⟨300⟩, ⟨500⟩, ⟨600⟩, ⟨700⟩⟩ zeroOffsets).2 1
    (by decide) (by decide))

/-- C10: every produced row is non-decreasing with all values in
`[0, 1439]` (even when the repair saturates at 1439), and the repair
never decreases any clamped value. -/
theorem C10_rows_nondecreasing :
    (∀ (oracle : List (Option OracleRow)) (o : Offsets)
      (rows : List (List Nat)),
      compute_minutes_table oracle o = some rows →
      ∀ r ∈ rows, (∀ x ∈ r, x ≤ 1439) ∧ nondecRow r) ∧
    (∀ (pt : OracleRow) (o : Offsets) (i : Nat),
      (clampedMinutes pt o).getD i 0 ≤ (computeRow pt o).getD i 0) := by
  constructor
  · intro oracle o rows h r hr
    obtain ⟨pt, _, hre⟩ := compute_minutes_table_mem oracle o rows h r hr
    subst hre
    refine ⟨computeRow_mem_le pt o, ?_⟩
    exact (computeRow_strict_or_sat pt o).imp (fun h1 => by omega)
  · exact fun pt o i => computeRow_ge_clamped pt o i

/-- Witness for C10 at a concrete saturating schedule. -/
theorem C10_rows_nondecreasing_witness :
    compute_minutes_table [some allLateRow] zeroOffsets =
      some [[1439, 1439, 1439, 1439, 1439]] ∧
    ((∀ x ∈ [1439, 1439, 1439, 1439, 1439], x ≤ 1439) ∧
      nondecRow [1439, 1439, 1439, 1439, 1439]) :=
  ⟨by decide,
   C10_rows_nondecreasing.1 [some allLateRow] zeroOffsets
     [[1439, 1439, 1439, 1439, 1439]] (by decide)
     [1439, 1439, 1439, 1439, 1439] (by decide)⟩

-- The RTC field codec (`validate_rtc_ascii`).

/-- Characters stripped by Python `str.strip()` (and by `int()` around a
numeral): CPython's whitespace set restricted to the Latin-1 range.  On
the ASCII strings this development quantifies over, the set is exact. -/
def pyIsSpace (c : Char) : Bool :=
  decide (c.toNat = 32 ∨ (9 ≤ c.toNat ∧ c.toNat ≤ 13) ∨
    (28 ≤ c.toNat ∧ c.toNat ≤ 31) ∨ c.toNat = 133 ∨ c.toNat = 160)

/-- Python `s.strip()`: remove leading and trailing whitespace. -/
def pyStrip (l : List Char) : List Char :=
  ((l.dropWhile pyIsSpace).reverse.dropWhile pyIsSpace).reverse

/-- ASCII decimal digit test. -/
def isAsciiDigit (c : Char) : Bool := decide (48 ≤ c.toNat ∧ c.toNat ≤ 57)

/-- Numeric value of an ASCII digit. -/
def digitVal (c : Char) : Int := (c.toNat : Int) - 48

/-- Python `int(x)` for a 2-character ASCII slice `x = [c1, c2]`: strips
whitespace from both ends, allows one optional sign, then requires a
non-empty run of digits and nothing else (an underscore is never legal in
a 2-character numeral). -/
def pyInt2 (c1 c2 : Char) : Option Int :=
  if pyIsSpace c1 ∧ pyIsSpace c2 then none
  else if pyIsSpace c1 then
    (if isAsciiDigit c2 then some (digitVal c2) else none)
  else if pyIsSpace c2 then
    (if isAsciiDigit c1 then some (digitVal c1) else none)
  else if isAsciiDigit c1 ∧ isAsciiDigit c2 then
    some (10 * digitVal c1 + digitVal c2)
  else if c1 = '+' ∧ isAsciiDigit c2 then some (digitVal c2)
  else if c1 = '-' ∧ isAsciiDigit c2 then some (-(digitVal c2))
  else none

/-- Python `f"{v:02d}"` for `v` in `[-9, 99]` — the only values `pyInt2`
can produce (zero-pad to width 2, the sign counting toward the width). -/
def format02 (v : Int) : List Char :=
  if v < 0 then ['-', Char.ofNat (48 + (-v).toNat)]
  else if v < 10 then ['0', Char.ofNat (48 + v.toNat)]
  else [Char.ofNat (48 + v.toNat / 10), Char.ofNat (48 + v.toNat % 10)]

/-- Source `validate_rtc_ascii`: strip, require 17 characters, check the
literal separators, parse the six 2-character fields with `int`, check
the ranges, and return the re-formatted normalized string; any failure
(including an exception from `int`) yields `None`. -/
def validate_rtc_ascii (s0 : String) : Option String :=
  let s := pyStrip s0.data
  if s.length ≠ 17 then none
  else if ¬(s.getD 2 ' ' = ':' ∧ s.getD 5 ' ' = ':' ∧ s.getD 8 ' ' = '|' ∧
      s.getD 11 ' ' = '/' ∧ s.getD 14 ' ' = '/') then none
  else
    match pyInt2 (s.getD 0 ' ') (s.getD 1 ' '),
        pyInt2 (s.getD 3 ' ') (s.getD 4 ' '),
        pyInt2 (s.getD 6 ' ') (s.getD 7 ' '),
        pyInt2 (s.getD 9 ' ') (s.getD 10 ' '),
        pyInt2 (s.getD 12 ' ') (s.getD 13 ' '),
        pyInt2 (s.getD 15 ' ') (s.getD 16 ' ') with
    | some HH, some MM, some SS, some DD, some MO, some YY =>
        if ¬(0 ≤ HH ∧ HH ≤ 23 ∧ 0 ≤ MM ∧ MM ≤ 59 ∧ 0 ≤ SS ∧ SS ≤ 59) then
          none
        else if ¬(1 ≤ MO ∧ MO ≤ 12 ∧ 1 ≤ DD ∧ DD ≤ 31) then none
        else some ⟨format02 HH ++ ':' :: format02 MM ++ ':' :: format02 SS ++
          '|' :: format02 DD ++ '/' :: format02 MO ++ '/' :: format02 YY⟩
    | _, _, _, _, _, _ => none

/-- C6 counterexample: an 18-character input (a trailing blank) is
accepted, because the code strips surrounding whitespace before the
length test — so "every input not of exactly 17 characters is rejected"
fails on the code. -/
theorem C6_rtc_counterexample :
    ("07:15:00|01/01/25 ").length = 18 ∧
    validate_rtc_ascii "07:15:00|01/01/25 " = some "07:15:00|01/01/25" := by
  constructor
  · decide
  · decide

/-- C6 (amended): the validator accepts an input only if, after
stripping leading and trailing whitespace, exactly 17 characters remain,
with the literal separators at positions 2, 5 (':'), 8 ('|'), 11, 14
('/'), and each 2-character numeric field parses as a Python integer in
the required range (normally two-digit zero-padded; a single digit
padded by whitespace or preceded by a sign also parses); every input
whose stripped form is not exactly 17 characters is rejected. -/
theorem C6_rtc_accept_amended (s0 : String)
    (_hascii : ∀ c ∈ s0.data, c.toNat < 128) :
    (validate_rtc_ascii s0 ≠ none →
      (pyStrip s0.data).length = 17 ∧
      ((pyStrip s0.data).getD 2 ' ' = ':' ∧
       (pyStrip s0.data).getD 5 ' ' = ':' ∧
       (pyStrip s0.data).getD 8 ' ' = '|' ∧
       (pyStrip s0.data).getD 11 ' ' = '/' ∧
       (pyStrip s0.data).getD 14 ' ' = '/') ∧
      (∃ HH MM SS DD MO YY,
        pyInt2 ((pyStrip s0.data).getD 0 ' ') ((pyStrip s0.data).getD 1 ' ') =
          some HH ∧
        pyInt2 ((pyStrip s0.data).getD 3 ' ') ((pyStrip s0.data).getD 4 ' ') =
          some MM ∧
        pyInt2 ((pyStrip s0.data).getD 6 ' ') ((pyStrip s0.data).getD 7 ' ') =
          some SS ∧
        pyInt2 ((pyStrip s0.data).getD 9 ' ') ((pyStrip s0.data).getD 10 ' ') =
          some DD ∧
        pyInt2 ((pyStrip s0.data).getD 12 ' ') ((pyStrip s0.data).getD 13 ' ') =
          some MO ∧
        pyInt2 ((pyStrip s0.data).getD 15 ' ') ((pyStrip s0.data).getD 16 ' ') =
          some YY ∧
        0 ≤ HH ∧ HH ≤ 23 ∧ 0 ≤ MM ∧ MM ≤ 59 ∧ 0 ≤ SS ∧ SS ≤ 59 ∧
        1 ≤ MO ∧ MO ≤ 12 ∧ 1 ≤ DD ∧ DD ≤ 31)) ∧
    ((pyStrip s0.data).length ≠ 17 → validate_rtc_ascii s0 = none) := by
  constructor
  · intro hne
    unfold validate_rtc_ascii at hne
    dsimp only at hne
    split at hne
    · exact absurd rfl hne
    next h17 =>
    refine ⟨by omega, ?_⟩
    split at hne
    · exact absurd rfl hne
    next hsep =>
    refine ⟨not_not.mp hsep, ?_⟩
    split at hne
    next HH MM SS DD MO YY e0 e1 e2 e3 e4 e5 =>
      split at hne
      · exact absurd rfl hne
      next htime =>
      split at hne
      · exact absurd rfl hne
      next hdate =>
      have ht := not_not.mp htime
      have hd := not_not.mp hdate
      exact ⟨HH, MM, SS, DD, MO, YY, e0, e1, e2, e3, e4, e5,
        ht.1, ht.2.1, ht.2.2.1, ht.2.2.2.1, ht.2.2.2.2.1, ht.2.2.2.2.2,
        hd.1, hd.2.1, hd.2.2.1, hd.2.2.2⟩
    next => exact absurd rfl hne
  · intro h17
    unfold validate_rtc_ascii
    dsimp only
    rw [if_pos h17]

/-- Witness for C6 (amended): a 4-character input is rejected. -/
theorem C6_rtc_accept_witness :
    (∀ c ∈ ("0123" : String).data, c.toNat < 128) ∧
    (pyStrip ("0123" : String).data).length ≠ 17 ∧
    validate_rtc_ascii "0123" = none :=
  ⟨by decide, by decide,
   (C6_rtc_accept_amended "0123" (by decide)).2 (by decide)⟩

/-- C7 counterexample: `"07:15:00|32/01/25"` is rejected, not accepted —
the code enforces day-of-month within `[1, 31]`, and 32 is out of
range. -/
theorem C7_rtc_counterexample :
    validate_rtc_ascii "07:15:00|32/01/25" = none := by decide

/-- C7 (amended): `"07:15:00|01/01/25"` is accepted and returned
unchanged, `"7:15:00|1/1/25"` is rejected (wrong width),
`"25:00:00|01/01/25"` is rejected (hour out of range),
`"07:15:00|32/01/25"` is rejected (day 32 exceeds the `[1, 31]` range),
while `"07:15:00|31/02/25"` is accepted because day-of-month is not
cross-checked against the month. -/
theorem C7_rtc_examples_amended :
    validate_rtc_ascii "07:15:00|01/01/25" = some "07:15:00|01/01/25" ∧
    validate_rtc_ascii "7:15:00|1/1/25" = none ∧
    validate_rtc_ascii "25:00:00|01/01/25" = none ∧
    validate_rtc_ascii "07:15:00|32/01/25" = none ∧
    validate_rtc_ascii "07:15:00|31/02/25" = some "07:15:00|31/02/25" := by
  refine ⟨by decide, by decide, by decide, by decide, by decide⟩

-- The binary encoder (`write_pray2_bin`).

/-- The two bytes of an unsigned 16-bit little-endian value. -/
def u16leBytes (x : Nat) : List Nat := [x % 256, x / 256]

/-- The four bytes of an unsigned 32-bit little-endian value. -/
def u32leBytes (x : Nat) : List Nat :=
  [x % 256, x / 256 % 256, x / 65536 % 256, x / 16777216 % 256]

/-- Python `struct.pack("<B", x)`: one byte; out of range raises. -/
def u8 (x : Nat) : Option (List Nat) :=
  if x < 256 then some [x] else none

/-- Python `struct.pack("<H", x)`: unsigned 16-bit little-endian. -/
def u16le (x : Nat) : Option (List Nat) :=
  if x < 65536 then some (u16leBytes x) else none

/-- Python `struct.pack("<I", x)`: unsigned 32-bit little-endian. -/
def u32le (x : Nat) : Option (List Nat) :=
  if x < 4294967296 then some (u32leBytes x) else none

/-- Python `struct.pack("<5H", *xs)`: exactly five unsigned 16-bit
little-endian values. -/
def pack5H (xs : List Nat) : Option (List Nat) :=
  if xs.length = 5 ∧ ∀ x ∈ xs, x < 65536 then
    some (xs.flatMap u16leBytes)
  else none

/-- Source loop `for t in rows: buf += struct.pack("<5H", *t)`: the
packed table bytes, aborting on any pack failure. -/
def packRows (rows : List (List Nat)) : Option (List Nat) :=
  match rows with
  | [] => some []
  | r :: rest =>
      (pack5H r).bind fun rb =>
      (packRows rest).bind fun rbs => some (rb ++ rbs)

/-- Python `s.encode("ascii")`: byte per character, failing on any
code point of 128 or above. -/
def encodeAscii (s : String) : Option (List Nat) :=
  if ∀ c ∈ s.data, c.toNat < 128 then some (s.data.map Char.toNat)
  else none

/-- Source `METHOD_CODE` dictionary; a lookup of a missing key raises
`KeyError`, modelled by `none`. -/
def METHOD_CODE (k : String) : Option Nat :=
  if k = "CUSTOM" then some 0
  else if k = "KARACHI" then some 1
  else if k = "MUSLIM_WORLD_LEAGUE" then some 2
  else if k = "EGYPTIAN" then some 3
  else if k = "UMM_AL_QURA" then some 4
  else if k = "MOON_SIGHTING_COMMITTEE" then some 5
  else if k = "NORTH_AMERICA" then some 6
  else none

/-- The reflected CRC-32 polynomial used by zlib. -/
def crcPoly : Nat := 0xEDB88320

/-- One bit step of the reflected CRC-32. -/
def crcBitStep (r : Nat) : Nat :=
  if r % 2 = 1 then (r / 2) ^^^ crcPoly else r / 2

/-- Fold one byte into the running CRC register. -/
def crcByteStep (r b : Nat) : Nat := Nat.iterate crcBitStep 8 (r ^^^ b)

/-- Model of `zlib.crc32(buf)`: standard reflected CRC-32, initial value
`0xFFFFFFFF`, final complement. -/
def crc32 (bytes : List Nat) : Nat :=
  (bytes.foldl crcByteStep 0xFFFFFFFF) ^^^ 0xFFFFFFFF

/-- Span start date fields used by the header (`start.year`,
`start.month`, `start.day`). -/
structure StartDate where
  year : Nat
  month : Nat
  day : Nat
deriving Repr, DecidableEq

/-- The bytes of the magic `b"PRAY2"`. -/
def magicPRAY2 : List Nat := [80, 82, 65, 89, 50]

/-- Source `assert len(buf) == header_size` (an `AssertionError` would
abort the encode, modelled by `none`). -/
def assertHeader64 (header : List Nat) : Option (List Nat) :=
  if header.length ≠ 64 then none else some header

/-- Source lines `crc = zlib.crc32(buf) & 0xFFFFFFFF` and
`buf += struct.pack("<I", crc)`. -/
def appendCrc (body : List Nat) : Option (List Nat) :=
  (u32le (crc32 body &&& 0xFFFFFFFF)).bind fun crcB => some (body ++ crcB)

/-- Source `write_pray2_bin` up to (and excluding) the final file write:
computes the table, resolves the method code, validates the RTC bytes,
assembles the 64-byte header (with the `assert len(buf) == header_size`
check), appends one packed row per date and the CRC-32 trailer, and
returns the complete byte buffer.  Every Python failure path (oracle
exception, `KeyError`, `RuntimeError`, `struct.error`, failed assert)
returns `none`; the file write itself is the external collaborator and
happens only after the buffer is complete. -/
def write_pray2_bin (start : StartDate) (oracle : List (Option OracleRow))
    (offsets : Offsets) (default_on : List Nat) (method_key : String)
    (rtc_ascii : String) (flags : Nat) : Option (List Nat) :=
  match compute_minutes_table oracle offsets with
  | none => none
  | some rows =>
    match METHOD_CODE method_key, encodeAscii rtc_ascii with
    | some method_code, some rtc_bytes =>
      if rtc_bytes.length ≠ 17 then none
      else
        match u8 2, u16le 64, u16le start.year, u16le rows.length,
            u8 start.month, u8 start.day, u8 (flags % 256), u8 method_code,
            u8 0, pack5H default_on, u32le 64, u32le (rows.length * 5 * 2),
            u32le 0, u32le 0, u16le 0, u16le 0, packRows rows with
        | some versionB, some header_sizeB, some yearB, some daysB,
          some monthB, some dayB, some flagsB, some methodB, some padB,
          some durB, some table_offsetB, some table_sizeB,
          some durations_offsetB, some durations_sizeB, some reserved1B,
          some reserved2B, some rowBs =>
            (assertHeader64 (magicPRAY2 ++ versionB ++ header_sizeB ++
              yearB ++ daysB ++ monthB ++ dayB ++ flagsB ++ methodB ++
              rtc_bytes ++ padB ++ durB ++ table_offsetB ++ table_sizeB ++
              durations_offsetB ++ durations_sizeB ++ reserved1B ++
              reserved2B)).bind fun header =>
            appendCrc (header ++ rowBs)
        | _, _, _, _, _, _, _, _, _, _, _, _, _, _, _, _, _ => none
    | _, _ => none

-- Layout characterization of the encoder.

/-- Schedule table bytes as described by the spec: one 10-byte row per
date, five u16 little-endian minute values per row. -/
def tableBytes (rows : List (List Nat)) : List Nat :=
  rows.flatMap (fun r => r.flatMap u16leBytes)

/-- The 64-byte header laid out field by field following the spec's
offset table (section 6): magic, version 2, header_size 64, year,
day_count, start month/day, flags byte, method code, 17 RTC bytes, pad,
five u16 relay durations, table_offset 64, table_size = day_count times
10, reserved durations block offset and size, two reserved u16 zeros.
This definition is written from the spec's words; the refinement
theorems compare `write_pray2_bin` against it. -/
def pray2Header (year days month day flagsByte mc : Nat)
    (rtcB durB : List Nat) : List Nat :=
  magicPRAY2 ++ [2] ++ [64, 0] ++ u16leBytes year ++ u16leBytes days ++
  [month] ++ [day] ++ [flagsByte] ++ [mc] ++ rtcB ++ [0] ++ durB ++
  [64, 0, 0, 0] ++ u32leBytes (days * 10) ++ [0, 0, 0, 0] ++
  [0, 0, 0, 0] ++ [0, 0] ++ [0, 0]

/-- Header plus table: everything the CRC is computed over. -/
def pray2Body (start : StartDate) (rows : List (List Nat))
    (flagsByte mc : Nat) (rtcB durB : List Nat) : List Nat :=
  pray2Header start.year rows.length start.month start.day flagsByte mc
    rtcB durB ++ tableBytes rows

theorem u8_some {x : Nat} {l : List Nat} (h : u8 x = some l) :
    x < 256 ∧ l = [x] := by
  unfold u8 at h; split at h <;> simp_all

theorem u16le_some {x : Nat} {l : List Nat} (h : u16le x = some l) :
    x < 65536 ∧ l = u16leBytes x := by
  unfold u16le at h; split at h <;> simp_all

theorem u32le_some {x : Nat} {l : List Nat} (h : u32le x = some l) :
    x < 4294967296 ∧ l = u32leBytes x := by
  unfold u32le at h; split at h <;> simp_all

theorem pack5H_some {xs l : List Nat} (h : pack5H xs = some l) :
    (xs.length = 5 ∧ ∀ x ∈ xs, x < 65536) ∧ l = xs.flatMap u16leBytes := by
  unfold pack5H at h; split at h <;> simp_all

theorem pack5H_intro {xs : List Nat} (h5 : xs.length = 5)
    (hlt : ∀ x ∈ xs, x < 65536) :
    pack5H xs = some (xs.flatMap u16leBytes) := by
  unfold pack5H; rw [if_pos ⟨h5, hlt⟩]

theorem encodeAscii_some {s : String} {l : List Nat}
    (h : encodeAscii s = some l) :
    (∀ c ∈ s.data, c.toNat < 128) ∧ l = s.data.map Char.toNat := by
  unfold encodeAscii at h; split at h <;> simp_all

theorem METHOD_CODE_lt {k : String} {c : Nat} (h : METHOD_CODE k = some c) :
    c < 256 := by
  unfold METHOD_CODE at h
  split_ifs at h <;> simp_all <;> omega

theorem packRows_some {rows : List (List Nat)} {bs : List Nat}
    (h : packRows rows = some bs) : bs = tableBytes rows := by
  induction rows generalizing bs with
  | nil => simp only [packRows] at h; cases h; rfl
  | cons r rest ih =>
      simp only [packRows, Option.bind_eq_some] at h
      obtain ⟨rb, hrb, rbs, hrbs, hbs⟩ := h
      obtain ⟨_, hrbe⟩ := pack5H_some hrb
      cases hbs
      simp [tableBytes, hrbe, ih hrbs]

theorem packRows_intro {rows : List (List Nat)}
    (h : ∀ r ∈ rows, r.length = 5 ∧ ∀ x ∈ r, x < 65536) :
    packRows rows = some (tableBytes rows) := by
  induction rows with
  | nil => rfl
  | cons r rest ih =>
      have hr := h r (by simp)
      have hrest : ∀ r2 ∈ rest, r2.length = 5 ∧ ∀ x ∈ r2, x < 65536 :=
        fun r2 hr2 => h r2 (by simp [hr2])
      simp only [packRows, pack5H_intro hr.1 hr.2, ih hrest,
        Option.bind_eq_bind, Option.some_bind]
      simp [tableBytes]

theorem flatMap_u16leBytes_length (xs : List Nat) :
    (xs.flatMap u16leBytes).length = 2 * xs.length := by
  induction xs with
  | nil => rfl
  | cons x rest ih => simp [u16leBytes, ih]; omega

theorem tableBytes_length {rows : List (List Nat)}
    (h : ∀ r ∈ rows, r.length = 5) :
    (tableBytes rows).length = 10 * rows.length := by
  induction rows with
  | nil => rfl
  | cons r rest ih =>
      have h5 := h r (by simp)
      have hr : (r.flatMap u16leBytes).length = 10 := by
        rw [flatMap_u16leBytes_length, h5]
      have hrest := ih (fun r2 hr2 => h r2 (by simp [hr2]))
      have hsplit : tableBytes (r :: rest) =
          r.flatMap u16leBytes ++ tableBytes rest := by
        simp [tableBytes]
      rw [hsplit, List.length_append, hr, hrest]
      simp
      omega

theorem crcMasked_lt (body : List Nat) :
    crc32 body &&& 0xFFFFFFFF < 4294967296 := by
  have : crc32 body &&& 0xFFFFFFFF ≤ 0xFFFFFFFF := Nat.and_le_right
  omega

theorem appendCrc_eq (body : List Nat) :
    appendCrc body =
      some (body ++ u32leBytes (crc32 body &&& 0xFFFFFFFF)) := by
  unfold appendCrc u32le
  rw [if_pos (crcMasked_lt body)]
  rfl

theorem table_rows_wf {oracle : List (Option OracleRow)} {offsets : Offsets}
    {rows : List (List Nat)}
    (hrows : compute_minutes_table oracle offsets = some rows) :
    ∀ r ∈ rows, r.length = 5 ∧ ∀ x ∈ r, x < 65536 := by
  intro r hr
  obtain ⟨pt, _, hre⟩ := compute_minutes_table_mem oracle offsets rows hrows r hr
  subst hre
  exact ⟨computeRow_length pt offsets,
    fun x hx => lt_of_le_of_lt (computeRow_mem_le pt offsets x hx)
      (by norm_num)⟩

theorem write_pray2_bin_some_elim {start : StartDate}
    {oracle : List (Option OracleRow)} {offsets : Offsets}
    {default_on : List Nat} {method_key : String} {rtc_ascii : String}
    {flags : Nat} {buf : List Nat}
    (h : write_pray2_bin start oracle offsets default_on method_key
      rtc_ascii flags = some buf) :
    ∃ rows mc,
      compute_minutes_table oracle offsets = some rows ∧
      METHOD_CODE method_key = some mc ∧
      (∀ c ∈ rtc_ascii.data, c.toNat < 128) ∧
      rtc_ascii.data.length = 17 ∧
      start.year < 65536 ∧ rows.length < 65536 ∧
      start.month < 256 ∧ start.day < 256 ∧
      default_on.length = 5 ∧ (∀ x ∈ default_on, x < 65536) ∧
      buf = pray2Body start rows (flags % 256) mc
          (rtc_ascii.data.map Char.toNat) (default_on.flatMap u16leBytes) ++
        u32leBytes (crc32 (pray2Body start rows (flags % 256) mc
          (rtc_ascii.data.map Char.toNat)
          (default_on.flatMap u16leBytes)) &&& 0xFFFFFFFF) := by
  unfold write_pray2_bin at h
  cases hrows : compute_minutes_table oracle offsets with
  | none => rw [hrows] at h; exact Option.noConfusion h
  | some rows =>
  rw [hrows] at h
  cases hmc : METHOD_CODE method_key with
  | none => rw [hmc] at h; exact Option.noConfusion h
  | some mc =>
  rw [hmc] at h
  cases hrtc : encodeAscii rtc_ascii with
  | none => rw [hrtc] at h; exact Option.noConfusion h
  | some rtcB =>
  rw [hrtc] at h
  dsimp only at h
  obtain ⟨hascii, hrtcB⟩ := encodeAscii_some hrtc
  by_cases h17 : rtcB.length = 17
  case neg => rw [if_pos h17] at h; exact Option.noConfusion h
  case pos =>
  rw [if_neg (by simp [h17])] at h
  have hv : u8 2 = some [2] := rfl
  have hhs : u16le 64 = some [64, 0] := rfl
  have hpad : u8 0 = some [0] := rfl
  have hto : u32le 64 = some [64, 0, 0, 0] := rfl
  have hdo : u32le 0 = some [0, 0, 0, 0] := rfl
  have hr0 : u16le 0 = some [0, 0] := rfl
  rw [hv, hhs, hpad, hto, hdo, hr0] at h
  cases hyear : u16le start.year with
  | none => rw [hyear] at h; exact Option.noConfusion h
  | some yearB =>
  rw [hyear] at h
  obtain ⟨hyearlt, hyearB⟩ := u16le_some hyear
  cases hdays : u16le rows.length with
  | none => rw [hdays] at h; exact Option.noConfusion h
  | some daysB =>
  rw [hdays] at h
  obtain ⟨hdayslt, hdaysB⟩ := u16le_some hdays
  cases hmon : u8 start.month with
  | none => rw [hmon] at h; exact Option.noConfusion h
  | some monthB =>
  rw [hmon] at h
  obtain ⟨hmonlt, hmonB⟩ := u8_some hmon
  cases hday : u8 start.day with
  | none => rw [hday] at h; exact Option.noConfusion h
  | some dayB =>
  rw [hday] at h
  obtain ⟨hdaylt, hdayB⟩ := u8_some hday
  have hflags : u8 (flags % 256) = some [flags % 256] := by
    unfold u8; rw [if_pos (Nat.mod_lt _ (by norm_num))]
  rw [hflags] at h
  have hmcb : u8 mc = some [mc] := by
    unfold u8; rw [if_pos (METHOD_CODE_lt hmc)]
  rw [hmcb] at h
  cases hdur : pack5H default_on with
  | none => rw [hdur] at h; exact Option.noConfusion h
  | some durB =>
  rw [hdur] at h
  obtain ⟨⟨hdur5, hdurlt⟩, hdurB⟩ := pack5H_some hdur
  have hts : u32le (rows.length * 5 * 2) =
      some (u32leBytes (rows.length * 5 * 2)) := by
    unfold u32le; rw [if_pos (by omega)]
  rw [hts] at h
  have hpr : packRows rows = some (tableBytes rows) :=
    packRows_intro (table_rows_wf hrows)
  rw [hpr] at h
  dsimp only at h
  have hdurlen : durB.length = 10 := by
    rw [hdurB, flatMap_u16leBytes_length, hdur5]
  unfold assertHeader64 at h
  rw [if_neg (by
    simp [magicPRAY2, u32leBytes, hyearB, hdaysB, hmonB, hdayB,
      u16leBytes, h17, hdurlen])] at h
  simp only [Option.some_bind] at h
  rw [appendCrc_eq] at h
  have hbuf := (Option.some.inj h).symm
  refine ⟨rows, mc, rfl, rfl, hascii, by rw [hrtcB] at h17; simpa using h17,
    hyearlt, hdayslt, hmonlt, hdaylt, hdur5, hdurlt, ?_⟩
  rw [hbuf]
  have hmul : rows.length * 5 * 2 = rows.length * 10 := by ring
  simp only [pray2Body, pray2Header, hyearB, hdaysB, hmonB, hdayB, hrtcB,
    hdurB, hmul, List.append_assoc]

theorem write_pray2_bin_intro (start : StartDate)
    (oracle : List (Option OracleRow)) (offsets : Offsets)
    (default_on : List Nat) (method_key : String) (rtc_ascii : String)
    (flags : Nat) (rows : List (List Nat)) (mc : Nat)
    (hrows : compute_minutes_table oracle offsets = some rows)
    (hmc : METHOD_CODE method_key = some mc)
    (hascii : ∀ c ∈ rtc_ascii.data, c.toNat < 128)
    (h17 : rtc_ascii.data.length = 17)
    (hyear : start.year < 65536) (hdays : rows.length < 65536)
    (hmonth : start.month < 256) (hday : start.day < 256)
    (hdur5 : default_on.length = 5)
    (hdurlt : ∀ x ∈ default_on, x < 65536) :
    write_pray2_bin start oracle offsets default_on method_key rtc_ascii
        flags =
      some (pray2Body start rows (flags % 256) mc
          (rtc_ascii.data.map Char.toNat) (default_on.flatMap u16leBytes) ++
        u32leBytes (crc32 (pray2Body start rows (flags % 256) mc
          (rtc_ascii.data.map Char.toNat)
          (default_on.flatMap u16leBytes)) &&& 0xFFFFFFFF)) := by
  have henc : encodeAscii rtc_ascii =
      some (rtc_ascii.data.map Char.toNat) := by
    unfold encodeAscii; rw [if_pos hascii]
  have hv : u8 2 = some [2] := rfl
  have hhs : u16le 64 = some [64, 0] := rfl
  have hpad : u8 0 = some [0] := rfl
  have hto : u32le 64 = some [64, 0, 0, 0] := rfl
  have hdo : u32le 0 = some [0, 0, 0, 0] := rfl
  have hr0 : u16le 0 = some [0, 0] := rfl
  have hyB : u16le start.year = some (u16leBytes start.year) := by
    unfold u16le; rw [if_pos hyear]
  have hdB : u16le rows.length = some (u16leBytes rows.length) := by
    unfold u16le; rw [if_pos hdays]
  have hmB : u8 start.month = some [start.month] := by
    unfold u8; rw [if_pos hmonth]
  have hdyB : u8 start.day = some [start.day] := by
    unfold u8; rw [if_pos hday]
  have hfB : u8 (flags % 256) = some [flags % 256] := by
    unfold u8; rw [if_pos (Nat.mod_lt _ (by norm_num))]
  have hmcB : u8 mc = some [mc] := by
    unfold u8; rw [if_pos (METHOD_CODE_lt hmc)]
  have hdurB : pack5H default_on =
      some (default_on.flatMap u16leBytes) := pack5H_intro hdur5 hdurlt
  have htsB : u32le (rows.length * 5 * 2) =
      some (u32leBytes (rows.length * 5 * 2)) := by
    unfold u32le; rw [if_pos (by omega)]
  have hprB : packRows rows = some (tableBytes rows) :=
    packRows_intro (table_rows_wf hrows)
  unfold write_pray2_bin
  rw [hrows, hmc, henc]
  dsimp only
  rw [if_neg (by simp [h17])]
  rw [hv, hhs, hyB, hdB, hmB, hdyB, hfB, hmcB, hpad, hdurB, hto, htsB,
    hdo, hr0, hprB]
  dsimp only
  unfold assertHeader64
  rw [if_neg (by
    simp only [ne_eq, List.length_append, List.length_cons, List.length_nil,
      List.length_map, flatMap_u16leBytes_length, magicPRAY2, u16leBytes,
      u32leBytes]
    omega)]
  simp only [Option.some_bind]
  rw [appendCrc_eq]
  have hmul : rows.length * 5 * 2 = rows.length * 10 := by ring
  simp only [pray2Body, pray2Header, hmul, List.append_assoc]

-- Concrete encode fixture shared by the encoder witnesses.

/-- Span start 2025-08-28 (the spec's end-to-end example). -/
def exStart : StartDate := ⟨2025, 8, 28⟩

/-- Two-day oracle fixture (2025-08-28 and 2025-08-29). -/
def exOracle : List (Option OracleRow) := [some exRow1, some exRow2]

/-- Default relay durations. -/
def exDur : List Nat := [60, 45, 45, 45, 45]

/-- Example RTC field. -/
def exRtc : String := "07:15:00|01/01/25"

/-- Header plus table bytes of the fixture encode (everything before the
CRC trailer), as concrete bytes. -/
def exBody : List Nat :=
  [80, 82, 65, 89, 50, 2, 64, 0, 233, 7, 2, 0, 8, 28, 16, 1,
   48, 55, 58, 49, 53, 58, 48, 48, 124, 48, 49, 47, 48, 49, 47, 50, 53, 0,
   60, 0, 45, 0, 45, 0, 45, 0, 45, 0,
   64, 0, 0, 0, 20, 0, 0, 0, 0, 0, 0, 0, 0, 0, 0, 0, 0, 0, 0, 0,
   20, 1, 246, 2, 247, 3, 108, 4, 186, 4,
   19, 1, 245, 2, 246, 3, 107, 4, 185, 4]

theorem exEncode_eq :
    write_pray2_bin exStart exOracle zeroOffsets exDur "KARACHI" exRtc 16 =
      some (exBody ++ u32leBytes (crc32 exBody &&& 0xFFFFFFFF)) := by
  have h := write_pray2_bin_intro exStart exOracle zeroOffsets exDur
    "KARACHI" exRtc 16
    [[276, 758, 1015, 1132, 1210], [275, 757, 1014, 1131, 1209]] 1
    (by decide) (by decide) (by decide) (by decide) (by decide) (by decide)
    (by decide) (by decide) (by decide) (by decide)
  rw [h]
  have hbody : pray2Body exStart
      [[276, 758, 1015, 1132, 1210], [275, 757, 1014, 1131, 1209]]
      (16 % 256) 1 (exRtc.data.map Char.toNat) (exDur.flatMap u16leBytes) =
      exBody := by decide
  rw [hbody]

/-- C2: for every successful encode the buffer starts with the 64-byte
little-endian header laid out exactly as the spec's offset table — magic
"PRAY2", version 2, u16 header_size 64, u16 year, u16 day_count, start
month and day bytes, flags byte, method code byte from the fixed mapping
(CUSTOM=0 .. NORTH_AMERICA=6), 17 ASCII RTC bytes at offset 16, a zero
pad at offset 33, five u16 relay durations at offset 34 in prayer order,
u32 table_offset 64, u32 table_size day_count*10, u32 zeros for the
reserved durations block, and two reserved u16 zeros — followed by one
10-byte row of five u16 minute values per date. -/
theorem C2_header_layout {start : StartDate}
    {oracle : List (Option OracleRow)} {offsets : Offsets}
    {default_on : List Nat} {method_key : String} {rtc_ascii : String}
    {flags : Nat} {buf : List Nat}
    (h : write_pray2_bin start oracle offsets default_on method_key
      rtc_ascii flags = some buf) :
    (METHOD_CODE "CUSTOM" = some 0 ∧ METHOD_CODE "KARACHI" = some 1 ∧
     METHOD_CODE "MUSLIM_WORLD_LEAGUE" = some 2 ∧
     METHOD_CODE "EGYPTIAN" = some 3 ∧ METHOD_CODE "UMM_AL_QURA" = some 4 ∧
     METHOD_CODE "MOON_SIGHTING_COMMITTEE" = some 5 ∧
     METHOD_CODE "NORTH_AMERICA" = some 6) ∧
    ∃ rows mc,
      compute_minutes_table oracle offsets = some rows ∧
      METHOD_CODE method_key = some mc ∧
      rows.length < 65536 ∧
      (rtc_ascii.data.map Char.toNat).length = 17 ∧
      (∀ b ∈ rtc_ascii.data.map Char.toNat, b < 128) ∧
      buf = magicPRAY2 ++ [2] ++ [64, 0] ++ u16leBytes start.year ++
        u16leBytes rows.length ++ [start.month] ++ [start.day] ++
        [flags % 256] ++ [mc] ++ rtc_ascii.data.map Char.toNat ++ [0] ++
        default_on.flatMap u16leBytes ++ [64, 0, 0, 0] ++
        u32leBytes (rows.length * 10) ++ [0, 0, 0, 0] ++ [0, 0, 0, 0] ++
        [0, 0] ++ [0, 0] ++ tableBytes rows ++
        u32leBytes (crc32 (pray2Body start rows (flags % 256) mc
          (rtc_ascii.data.map Char.toNat)
          (default_on.flatMap u16leBytes)) &&& 0xFFFFFFFF) := by
  obtain ⟨rows, mc, hrows, hmc, hascii, h17, _, hdayslt, _, _, _, _, hbuf⟩ :=
    write_pray2_bin_some_elim h
  refine ⟨⟨rfl, rfl, rfl, rfl, rfl, rfl, rfl⟩, rows, mc, hrows, hmc,
    hdayslt, by simpa using h17, ?_, ?_⟩
  · intro b hb
    obtain ⟨c, hc, hce⟩ := List.mem_map.mp hb
    rw [← hce]
    exact hascii c hc
  · rw [hbuf]
    simp [pray2Body, pray2Header, List.append_assoc]

/-- Witness for C2 at the concrete two-day fixture encode. -/
theorem C2_header_layout_witness :
    (write_pray2_bin exStart exOracle zeroOffsets exDur "KARACHI" exRtc 16 =
      some (exBody ++ u32leBytes (crc32 exBody &&& 0xFFFFFFFF))) ∧
    ((METHOD_CODE "CUSTOM" = some 0 ∧ METHOD_CODE "KARACHI" = some 1 ∧
      METHOD_CODE "MUSLIM_WORLD_LEAGUE" = some 2 ∧
      METHOD_CODE "EGYPTIAN" = some 3 ∧ METHOD_CODE "UMM_AL_QURA" = some 4 ∧
      METHOD_CODE "MOON_SIGHTING_COMMITTEE" = some 5 ∧
      METHOD_CODE "NORTH_AMERICA" = some 6) ∧
     ∃ rows mc,
      compute_minutes_table exOracle zeroOffsets = some rows ∧
      METHOD_CODE "KARACHI" = some mc ∧
      rows.length < 65536 ∧
      (exRtc.data.map Char.toNat).length = 17 ∧
      (∀ b ∈ exRtc.data.map Char.toNat, b < 128) ∧
      exBody ++ u32leBytes (crc32 exBody &&& 0xFFFFFFFF) =
        magicPRAY2 ++ [2] ++ [64, 0] ++ u16leBytes exStart.year ++
        u16leBytes rows.length ++ [exStart.month] ++ [exStart.day] ++
        [16 % 256] ++ [mc] ++ exRtc.data.map Char.toNat ++ [0] ++
        exDur.flatMap u16leBytes ++ [64, 0, 0, 0] ++
        u32leBytes (rows.length * 10) ++ [0, 0, 0, 0] ++ [0, 0, 0, 0] ++
        [0, 0] ++ [0, 0] ++ tableBytes rows ++
        u32leBytes (crc32 (pray2Body exStart rows (16 % 256) mc
          (exRtc.data.map Char.toNat)
          (exDur.flatMap u16leBytes)) &&& 0xFFFFFFFF)) :=
  ⟨exEncode_eq, C2_header_layout exEncode_eq⟩

/-- C3: for every successful encode, the last 4 bytes are the
little-endian CRC-32 (reflected, zlib polynomial 0xEDB88320, modelled by
`crc32`) of all preceding bytes. -/
theorem C3_crc_trailer {start : StartDate}
    {oracle : List (Option OracleRow)} {offsets : Offsets}
    {default_on : List Nat} {method_key : String} {rtc_ascii : String}
    {flags : Nat} {buf : List Nat}
    (h : write_pray2_bin start oracle offsets default_on method_key
      rtc_ascii flags = some buf) :
    4 ≤ buf.length ∧
    buf.drop (buf.length - 4) =
      u32leBytes (crc32 (buf.take (buf.length - 4)) &&& 0xFFFFFFFF) := by
  obtain ⟨rows, mc, _, _, _, _, _, _, _, _, _, _, hbuf⟩ :=
    write_pray2_bin_some_elim h
  set body := pray2Body start rows (flags % 256) mc
    (rtc_ascii.data.map Char.toNat) (default_on.flatMap u16leBytes) with hb
  have hclen : (u32leBytes (crc32 body &&& 0xFFFFFFFF)).length = 4 := rfl
  have hlen : buf.length = body.length + 4 := by
    rw [hbuf, List.length_append, hclen]
  have hsub : buf.length - 4 = body.length := by omega
  constructor
  · omega
  · rw [hsub, hbuf, List.drop_left, List.take_left]

/-- Witness for C3 at the concrete fixture encode. -/
theorem C3_crc_trailer_witness :
    (write_pray2_bin exStart exOracle zeroOffsets exDur "KARACHI" exRtc 16 =
      some (exBody ++ u32leBytes (crc32 exBody &&& 0xFFFFFFFF))) ∧
    (4 ≤ (exBody ++ u32leBytes (crc32 exBody &&& 0xFFFFFFFF)).length ∧
     (exBody ++ u32leBytes (crc32 exBody &&& 0xFFFFFFFF)).drop
        ((exBody ++ u32leBytes (crc32 exBody &&& 0xFFFFFFFF)).length - 4) =
      u32leBytes (crc32 ((exBody ++
          u32leBytes (crc32 exBody &&& 0xFFFFFFFF)).take
        ((exBody ++ u32leBytes (crc32 exBody &&& 0xFFFFFFFF)).length - 4)) &&&
        0xFFFFFFFF)) :=
  ⟨exEncode_eq, C3_crc_trailer exEncode_eq⟩

theorem u16leBytes_length (x : Nat) : (u16leBytes x).length = 2 := rfl

theorem u32leBytes_length (x : Nat) : (u32leBytes x).length = 4 := rfl

/-- C4: for every successful encode of a span of D days the buffer is
exactly 64 + 10*D + 4 bytes; in particular the concrete two-day fixture
yields day_count bytes [2,0] at offset 10, table_size bytes [20,0,0,0]
at offset 48, and a total size of 88 bytes. -/
theorem C4_total_length :
    (∀ (start : StartDate) (oracle : List (Option OracleRow))
      (offsets : Offsets) (default_on : List Nat) (method_key : String)
      (rtc_ascii : String) (flags : Nat) (buf : List Nat),
      write_pray2_bin start oracle offsets default_on method_key rtc_ascii
        flags = some buf →
      buf.length = 64 + 10 * oracle.length + 4) ∧
    (write_pray2_bin exStart exOracle zeroOffsets exDur "KARACHI" exRtc 16 =
      some (exBody ++ u32leBytes (crc32 exBody &&& 0xFFFFFFFF)) ∧
     exOracle.length = 2 ∧
     (exBody ++ u32leBytes (crc32 exBody &&& 0xFFFFFFFF)).length = 88 ∧
     (exBody.drop 10).take 2 = [2, 0] ∧
     (exBody.drop 48).take 4 = [20, 0, 0, 0]) := by
  constructor
  · intro start oracle offsets default_on method_key rtc_ascii flags buf h
    obtain ⟨rows, mc, hrows, hmc, _, h17, _, _, _, _, hdur5, _, hbuf⟩ :=
      write_pray2_bin_some_elim h
    have hhl : (pray2Header start.year rows.length start.month start.day
        (flags % 256) mc (rtc_ascii.data.map Char.toNat)
        (default_on.flatMap u16leBytes)).length = 64 := by
      simp only [pray2Header, magicPRAY2, List.length_append,
        List.length_cons, List.length_nil, List.length_map, u16leBytes,
        u32leBytes, flatMap_u16leBytes_length]
      omega
    have htl : (tableBytes rows).length = 10 * rows.length :=
      tableBytes_length (fun r hr => (table_rows_wf hrows r hr).1)
    have hol : rows.length = oracle.length :=
      compute_minutes_table_length oracle offsets rows hrows
    rw [hbuf]
    simp only [pray2Body, List.length_append, hhl, htl, u32leBytes_length]
    omega
  · exact ⟨exEncode_eq, rfl, by decide, by decide, by decide⟩

/-- Witness for C4's universal part at the concrete fixture encode. -/
theorem C4_total_length_witness :
    (write_pray2_bin exStart exOracle zeroOffsets exDur "KARACHI" exRtc 16 =
      some (exBody ++ u32leBytes (crc32 exBody &&& 0xFFFFFFFF))) ∧
    (exBody ++ u32leBytes (crc32 exBody &&& 0xFFFFFFFF)).length =
      64 + 10 * exOracle.length + 4 :=
  ⟨exEncode_eq,
   C4_total_length.1 exStart exOracle zeroOffsets exDur "KARACHI" exRtc 16 _
     exEncode_eq⟩

/-- One generation run of `main`: the ambient current local time
`now_iso` (Python `datetime.now(...)`) is available to the run but is
used only by the CSV writer's leading `["# Generated", now_iso]`
metadata row (source `write_csv`); the binary encoder never reads it. -/
def runGenerate (now_iso : String) (start : StartDate)
    (oracle : List (Option OracleRow)) (offsets : Offsets)
    (default_on : List Nat) (method_key : String) (rtc_ascii : String)
    (flags : Nat) : Option (List Nat) × List String :=
  (write_pray2_bin start oracle offsets default_on method_key rtc_ascii
    flags,
   ["# Generated", now_iso])

/-- C8: the encoder is deterministic — the binary buffer is a pure
function of span, oracle results, offsets, durations, method, RTC string
and flags, and is independent of the run's current time (no hidden
generation timestamp in the binary; the timestamp only reaches the
peripheral CSV row). -/
theorem C8_deterministic : ∀ (now1 now2 : String) (start : StartDate)
    (oracle : List (Option OracleRow)) (offsets : Offsets)
    (default_on : List Nat) (method_key rtc_ascii : String) (flags : Nat),
    (runGenerate now1 start oracle offsets default_on method_key rtc_ascii
      flags).1 =
    (runGenerate now2 start oracle offsets default_on method_key rtc_ascii
      flags).1 :=
  fun _ _ _ _ _ _ _ _ _ => rfl

/-- C9: every core failure is terminal with no partial output — if the
oracle fails on any date, or the day count exceeds 65535, or the RTC
field is not exactly 17 characters, or the method name is unmapped, the
encoder returns no buffer at all (so nothing is ever written). -/
theorem C9_terminal_failures (start : StartDate)
    (oracle : List (Option OracleRow)) (offsets : Offsets)
    (default_on : List Nat) (method_key : String) (rtc_ascii : String)
    (flags : Nat)
    (hfail : none ∈ oracle ∨ 65535 < oracle.length ∨
      rtc_ascii.length ≠ 17 ∨ METHOD_CODE method_key = none) :
    write_pray2_bin start oracle offsets default_on method_key rtc_ascii
      flags = none := by
  cases heq : write_pray2_bin start oracle offsets default_on method_key
      rtc_ascii flags with
  | none => rfl
  | some buf =>
    exfalso
    obtain ⟨rows, mc, hrows, hmc, _, h17, _, hdayslt, _, _, _, _, _⟩ :=
      write_pray2_bin_some_elim heq
    rcases hfail with hf | hf | hf | hf
    · exact (compute_minutes_table_no_failure oracle offsets rows hrows) hf
    · have := compute_minutes_table_length oracle offsets rows hrows
      omega
    · exact hf h17
    · rw [hmc] at hf
      exact Option.noConfusion hf

/-- Witness for C9: an unmapped method name aborts the encode. -/
theorem C9_terminal_failures_witness :
    (none ∈ ([some exRow1] : List (Option OracleRow)) ∨
      65535 < ([some exRow1] : List (Option OracleRow)).length ∨
      exRtc.length ≠ 17 ∨ METHOD_CODE "ISNA" = none) ∧
    write_pray2_bin exStart [some exRow1] zeroOffsets exDur "ISNA" exRtc
      16 = none :=
  ⟨Or.inr (Or.inr (Or.inr (by decide))),
   C9_terminal_failures exStart [some exRow1] zeroOffsets exDur "ISNA"
     exRtc 16 (Or.inr (Or.inr (Or.inr (by decide))))⟩

end AzanBin
